import Mathlib

/-!
Shallow embedding of the user-record service core of this repository
(src/app/src/services/user_service.go): an in-process map from string ids to
user records with five synchronous operations (Get, Create, Update, Delete,
List).  The Go map is modelled as an association list with unique keys
(reachable states keep keys distinct); Go map indexing, assignment and
deletion become findUser, setUser and delUser.  Go time.Time values are
modelled as integers (nanoseconds); each operation that reads the clock takes
the current time as an explicit argument.  The int32 request fields page and
limit follow Go two-complement wraparound via wrap32 where the code performs
int32 arithmetic.  Go slice indexing can panic on out-of-range bounds, so
ListUsers returns an Option: none models the runtime panic of
allUsers[start:end] when the bounds are invalid.
-/

set_option autoImplicit false

namespace UserService

/-- The User struct of user_service.go.  CreatedAt and UpdatedAt are
nanosecond timestamps modelled as integers. -/
structure User where
  id        : String
  name      : String
  email     : String
  age       : Int
  createdAt : Int
  updatedAt : Int
deriving Repr, DecidableEq

/-- The users field of UserService: a map from string id to record, modelled
as an association list with (in reachable states) pairwise distinct keys. -/
abbrev Store := List (String × User)

/-- Go map indexing users[id]: the value at the first matching key. -/
def findUser : Store → String → Option User
  | [], _ => none
  | (k, u) :: rest, i => if k = i then some u else findUser rest i

/-- Go map assignment users[k] = v: replace the entry at k if present,
otherwise append a new entry. -/
def setUser : Store → String → User → Store
  | [], k, v => [(k, v)]
  | (k0, u) :: rest, k, v =>
      if k0 = k then (k, v) :: rest else (k0, u) :: setUser rest k v

/-- Go map deletion delete(users, k): remove the entry at k when present. -/
def delUser : Store → String → Store
  | [], _ => []
  | (k0, u) :: rest, k => if k0 = k then rest else (k0, u) :: delUser rest k

/-- Two-complement wraparound of Go int32 arithmetic. -/
def wrap32 (x : Int) : Int := (x + 2 ^ 31) % 2 ^ 32 - 2 ^ 31

/-- Nanoseconds in one hour (Go time.Hour). -/
def nsPerHour : Int := 3600000000000

/-- Response of GetUser (proto.GetUserResponse): optional record, success
flag, message. -/
structure GetUserResponse where
  user    : Option User
  success : Bool
  message : String
deriving Repr, DecidableEq

/-- Response of CreateUser (proto.CreateUserResponse). -/
structure CreateUserResponse where
  user    : Option User
  success : Bool
  message : String
deriving Repr, DecidableEq

/-- Response of UpdateUser (proto.UpdateUserResponse). -/
structure UpdateUserResponse where
  user    : Option User
  success : Bool
  message : String
deriving Repr, DecidableEq

/-- Response of DeleteUser (proto.DeleteUserResponse): no record payload. -/
structure DeleteUserResponse where
  success : Bool
  message : String
deriving Repr, DecidableEq

/-- Response of ListUsers (proto.ListUsersResponse). -/
structure ListUsersResponse where
  users   : List User
  total   : Int
  success : Bool
  message : String
deriving Repr, DecidableEq

/-- initializeSampleData: seed the store with the two fixed sample records,
created 24 and 12 hours before the construction time. -/
def initializeSampleData (startTime : Int) : Store :=
  let u1 : User :=
    { id := "1", name := "John Doe", email := "john.doe@example.com",
      age := 30, createdAt := startTime - 24 * nsPerHour,
      updatedAt := startTime - 24 * nsPerHour }
  let u2 : User :=
    { id := "2", name := "Jane Smith", email := "jane.smith@example.com",
      age := 25, createdAt := startTime - 12 * nsPerHour,
      updatedAt := startTime - 12 * nsPerHour }
  setUser (setUser [] u1.id u1) u2.id u2

/-- NewUserService: a fresh store holds exactly the sample data. -/
def NewUserService (startTime : Int) : Store :=
  initializeSampleData startTime

/-- GetUser: look the id up; not-found is reported through the success flag.
The store is not modified. -/
def GetUser (st : Store) (id : String) : GetUserResponse :=
  match findUser st id with
  | none => { user := none, success := false, message := "User not found" }
  | some u =>
      { user := some u, success := true,
        message := "User retrieved successfully" }

/-- CreateUser: generate the id as the decimal string of (live count + 1),
build the record with createdAt = updatedAt = now, insert it, return it. -/
def CreateUser (st : Store) (now : Int) (name email : String) (age : Int) :
    CreateUserResponse × Store :=
  let userID := toString (st.length + 1)
  let user : User :=
    { id := userID, name := name, email := email, age := age,
      createdAt := now, updatedAt := now }
  ({ user := some user, success := true,
     message := "User created successfully" },
   setUser st userID user)

/-- UpdateUser: not-found short-circuits; otherwise overwrite name and email
when non-empty and age when strictly positive, refresh updatedAt
unconditionally, and return the updated record. -/
def UpdateUser (st : Store) (now : Int) (id name email : String)
    (age : Int) : UpdateUserResponse × Store :=
  match findUser st id with
  | none =>
      ({ user := none, success := false, message := "User not found" }, st)
  | some u =>
      let u2 : User :=
        { u with
          name := if name ≠ "" then name else u.name,
          email := if email ≠ "" then email else u.email,
          age := if age > 0 then age else u.age,
          updatedAt := now }
      ({ user := some u2, success := true,
         message := "User updated successfully" }, setUser st id u2)

/-- DeleteUser: not-found short-circuits; otherwise remove the key. -/
def DeleteUser (st : Store) (id : String) : DeleteUserResponse × Store :=
  match findUser st id with
  | none => ({ success := false, message := "User not found" }, st)
  | some _ =>
      ({ success := true, message := "User deleted successfully" },
       delUser st id)

/-- ListUsers: materialize the records, compute start = (page-1)*limit in
int32 arithmetic, end = start + limit; an out-of-range start returns an empty
page; otherwise clamp end to the record count and slice.  The Go slice
expression allUsers[start:end] panics when start < 0 or start > end, which is
modelled by the none result. -/
def ListUsers (st : Store) (page limit : Int) : Option ListUsersResponse :=
  let allUsers := st.map Prod.snd
  let n : Int := allUsers.length
  let start : Int := wrap32 (wrap32 (page - 1) * limit)
  let endIdx : Int := start + limit
  if start ≥ n then
    some { users := [], total := wrap32 n, success := true,
           message := "No users found for the given page" }
  else
    let endC : Int := if endIdx > n then n else endIdx
    if 0 ≤ start ∧ start ≤ endC then
      some { users := (allUsers.drop start.toNat).take (endC - start).toNat,
             total := wrap32 n, success := true,
             message := "Users retrieved successfully" }
    else
      none

/-- The operations that a caller can issue against the service. -/
inductive Op where
  | create (name email : String) (age : Int)
  | update (id name email : String) (age : Int)
  | delete (id : String)
  | get (id : String)
  | list (page limit : Int)
deriving Repr, DecidableEq

/-- The store after one operation issued at time now (Get and List do not
mutate the store). -/
def applyOp (st : Store) (now : Int) : Op → Store
  | .create name email age => (CreateUser st now name email age).2
  | .update id name email age => (UpdateUser st now id name email age).2
  | .delete id => (DeleteUser st id).2
  | .get _ => st
  | .list _ _ => st

/-- The store after a timed sequence of operations. -/
def run (st : Store) : List (Int × Op) → Store
  | [] => st
  | (t, op) :: rest => run (applyOp st t op) rest

/-- The timestamps of a timed operation sequence are nondecreasing and start
no earlier than t. -/
def sortedFrom (t : Int) : List (Int × Op) → Bool
  | [] => true
  | (t2, _) :: rest => if t ≤ t2 then sortedFrom t2 rest else false

/-! Helper lemmas about the association-list map operations. -/

theorem findUser_setUser_self (st : Store) (k : String) (u : User) :
    findUser (setUser st k u) k = some u := by
  induction st with
  | nil => simp [setUser, findUser]
  | cons hd tl ih =>
      obtain ⟨k0, v⟩ := hd
      by_cases h : k0 = k
      · simp [setUser, findUser, h]
      · simp [setUser, findUser, h, ih]

theorem findUser_setUser_ne (st : Store) (k k0 : String) (u : User)
    (h : k ≠ k0) : findUser (setUser st k0 u) k = findUser st k := by
  induction st with
  | nil => simp [setUser, findUser, Ne.symm h]
  | cons hd tl ih =>
      obtain ⟨k1, v⟩ := hd
      by_cases h1 : k1 = k0
      · subst h1
        simp [setUser, findUser, Ne.symm h]
      · by_cases h2 : k1 = k <;> simp [setUser, findUser, h1, h2, h, ih]

theorem findUser_mem (st : Store) (i : String) (u : User)
    (h : findUser st i = some u) : (i, u) ∈ st := by
  induction st with
  | nil => simp [findUser] at h
  | cons hd tl ih =>
      obtain ⟨k0, v⟩ := hd
      by_cases h1 : k0 = i
      · subst h1
        simp [findUser] at h
        simp [h]
      · simp [findUser, h1] at h
        exact List.mem_cons_of_mem _ (ih h)

theorem mem_setUser (st : Store) (k : String) (u : User)
    (p : String × User) (h : p ∈ setUser st k u) :
    p = (k, u) ∨ p ∈ st := by
  induction st with
  | nil => simp [setUser] at h; simp [h]
  | cons hd tl ih =>
      obtain ⟨k0, v⟩ := hd
      by_cases h1 : k0 = k
      · simp [setUser, h1] at h
        rcases h with h | h
        · exact Or.inl h
        · exact Or.inr (List.mem_cons_of_mem _ h)
      · simp [setUser, h1] at h
        rcases h with h | h
        · exact Or.inr (by simp [h])
        · rcases ih h with h2 | h2
          · exact Or.inl h2
          · exact Or.inr (List.mem_cons_of_mem _ h2)

theorem mem_delUser (st : Store) (k : String)
    (p : String × User) (h : p ∈ delUser st k) : p ∈ st := by
  induction st with
  | nil => simp [delUser] at h
  | cons hd tl ih =>
      obtain ⟨k0, v⟩ := hd
      by_cases h1 : k0 = k
      · simp [delUser, h1] at h
        exact List.mem_cons_of_mem _ h
      · simp [delUser, h1] at h
        rcases h with h | h
        · simp [h]
        · exact List.mem_cons_of_mem _ (ih h)

theorem length_delUser (st : Store) (i : String) (u : User)
    (h : findUser st i = some u) :
    st.length = (delUser st i).length + 1 := by
  induction st with
  | nil => simp [findUser] at h
  | cons hd tl ih =>
      obtain ⟨k0, v⟩ := hd
      by_cases h1 : k0 = i
      · simp [delUser, h1]
      · simp [findUser, h1] at h
        simp [delUser, h1, ih h]

theorem findUser_eq_none_of_not_mem (st : Store) (i : String)
    (h : i ∉ st.map Prod.fst) : findUser st i = none := by
  induction st with
  | nil => simp [findUser]
  | cons hd tl ih =>
      obtain ⟨k0, v⟩ := hd
      simp only [List.map_cons, List.mem_cons, not_or] at h
      simp [findUser, Ne.symm h.1, ih h.2]

theorem findUser_delUser_self (st : Store) (i : String)
    (hnd : (st.map Prod.fst).Nodup) :
    findUser (delUser st i) i = none := by
  induction st with
  | nil => simp [delUser, findUser]
  | cons hd tl ih =>
      obtain ⟨k0, v⟩ := hd
      simp only [List.map_cons, List.nodup_cons] at hnd
      by_cases h1 : k0 = i
      · subst h1
        simpa [delUser] using findUser_eq_none_of_not_mem tl k0 hnd.1
      · simp [delUser, findUser, h1, ih hnd.2]

/-- Timestamp invariant carried through operation sequences: every live
record was last touched no later than the clock and was created no later
than it was last touched. -/
def InvTS (clock : Int) (st : Store) : Prop :=
  ∀ p ∈ st, p.2.createdAt ≤ p.2.updatedAt ∧ p.2.updatedAt ≤ clock

theorem invTS_mono (clock t : Int) (st : Store)
    (h : InvTS clock st) (hct : clock ≤ t) : InvTS t st := by
  intro p hp
  exact ⟨(h p hp).1, le_trans (h p hp).2 hct⟩

theorem invTS_applyOp (st : Store) (clock t : Int) (op : Op)
    (hInv : InvTS clock st) (hct : clock ≤ t) :
    InvTS t (applyOp st t op) := by
  cases op with
  | create name email age =>
      intro p hp
      simp only [applyOp, CreateUser] at hp
      rcases mem_setUser _ _ _ _ hp with h | h
      · subst h
        exact ⟨le_refl _, le_refl _⟩
      · exact ⟨(hInv p h).1, le_trans (hInv p h).2 hct⟩
  | update id name email age =>
      intro p hp
      cases hfind : findUser st id with
      | none =>
          simp only [applyOp, UpdateUser, hfind] at hp
          exact ⟨(hInv p hp).1, le_trans (hInv p hp).2 hct⟩
      | some u =>
          simp only [applyOp, UpdateUser, hfind] at hp
          rcases mem_setUser _ _ _ _ hp with h | h
          · subst h
            have hu := hInv (id, u) (findUser_mem st id u hfind)
            exact ⟨le_trans (le_trans hu.1 hu.2) hct, le_refl _⟩
          · exact ⟨(hInv p h).1, le_trans (hInv p h).2 hct⟩
  | delete id =>
      intro p hp
      cases hfind : findUser st id with
      | none =>
          simp only [applyOp, DeleteUser, hfind] at hp
          exact ⟨(hInv p hp).1, le_trans (hInv p hp).2 hct⟩
      | some u =>
          simp only [applyOp, DeleteUser, hfind] at hp
          have h := mem_delUser st id p hp
          exact ⟨(hInv p h).1, le_trans (hInv p h).2 hct⟩
  | get id =>
      exact invTS_mono clock t st hInv hct
  | list page limit =>
      exact invTS_mono clock t st hInv hct

theorem invTS_run (ops : List (Int × Op)) :
    ∀ (st : Store) (clock : Int), InvTS clock st →
      sortedFrom clock ops = true →
      ∀ p ∈ run st ops, p.2.createdAt ≤ p.2.updatedAt := by
  induction ops with
  | nil =>
      intro st clock hInv _ p hp
      exact (hInv p hp).1
  | cons hd tl ih =>
      obtain ⟨t, op⟩ := hd
      intro st clock hInv hs
      by_cases hct : clock ≤ t
      · simp [sortedFrom, hct] at hs
        exact ih (applyOp st t op) t (invTS_applyOp st clock t op hInv hct) hs
      · simp [sortedFrom, hct] at hs

theorem invTS_seed (t : Int) : InvTS t (NewUserService t) := by
  intro p hp
  simp [NewUserService, initializeSampleData, setUser] at hp
  rcases hp with hp | hp <;>
    · subst hp
      refine ⟨le_refl _, ?_⟩
      simp only [nsPerHour]
      omega

theorem wrap32_eq_self (x : Int) (h1 : -(2 ^ 31) ≤ x) (h2 : x < 2 ^ 31) :
    wrap32 x = x := by
  simp only [wrap32]
  omega

/-! Claim theorems. -/

/-- C1: for every store state and every request, CreateUser allocates the id
toString (live count + 1), independent of previously issued ids, builds the
record with createdAt = updatedAt = now, inserts it under that id, and
returns it with success = true. -/
theorem c1_create_allocates_count_plus_one (st : Store) (now : Int)
    (name email : String) (age : Int) :
    (CreateUser st now name email age).1.success = true ∧
    (CreateUser st now name email age).1.message =
      "User created successfully" ∧
    (CreateUser st now name email age).1.user =
      some { id := toString (st.length + 1), name := name, email := email,
             age := age, createdAt := now, updatedAt := now } ∧
    findUser (CreateUser st now name email age).2 (toString (st.length + 1)) =
      some { id := toString (st.length + 1), name := name, email := email,
             age := age, createdAt := now, updatedAt := now } := by
  refine ⟨rfl, rfl, rfl, ?_⟩
  simp only [CreateUser]
  exact findUser_setUser_self st (toString (st.length + 1)) _

/-- C3: UpdateUser on a present id overwrites name and email only when the
supplied strings are non-empty and age only when the supplied age is
strictly positive, refreshes updatedAt unconditionally, and returns the
updated record with success = true; the store holds the updated record. -/
theorem c3_update_partial_policy (st : Store) (now : Int)
    (id name email : String) (age : Int) (u : User)
    (h : findUser st id = some u) :
    (UpdateUser st now id name email age).1 =
      { user := some { u with
          name := if name ≠ "" then name else u.name,
          email := if email ≠ "" then email else u.email,
          age := if age > 0 then age else u.age,
          updatedAt := now },
        success := true, message := "User updated successfully" } ∧
    findUser (UpdateUser st now id name email age).2 id =
      some { u with
          name := if name ≠ "" then name else u.name,
          email := if email ≠ "" then email else u.email,
          age := if age > 0 then age else u.age,
          updatedAt := now } := by
  simp only [UpdateUser, h]
  exact ⟨trivial, findUser_setUser_self st id _⟩

/-- C3 witness: updating record 1 of the seeded store with name "New",
empty email and age 0 changes only the name and the updatedAt field. -/
theorem c3_update_partial_policy_witness :
    findUser (NewUserService 0) "1" =
      some { id := "1", name := "John Doe", email := "john.doe@example.com",
             age := 30, createdAt := -86400000000000,
             updatedAt := -86400000000000 } ∧
    (UpdateUser (NewUserService 0) 7 "1" "New" "" 0).1 =
      { user := some { id := "1", name := "New",
                       email := "john.doe@example.com", age := 30,
                       createdAt := -86400000000000, updatedAt := 7 },
        success := true, message := "User updated successfully" } := by
  constructor
  · decide
  · have h := c3_update_partial_policy (NewUserService 0) 7 "1" "New" "" 0
      { id := "1", name := "John Doe", email := "john.doe@example.com",
        age := 30, createdAt := -86400000000000,
        updatedAt := -86400000000000 } (by decide)
    exact h.1.trans (by decide)

/-- C6: Get, Update and Delete on an absent id report success = false with
the fixed message "User not found", carry no record payload, and leave the
store unchanged; a second Delete on the same absent id returns the same
result. -/
theorem c6_not_found_envelope (st : Store) (now : Int)
    (id name email : String) (age : Int)
    (h : findUser st id = none) :
    GetUser st id =
      { user := none, success := false, message := "User not found" } ∧
    UpdateUser st now id name email age =
      ({ user := none, success := false, message := "User not found" }, st) ∧
    DeleteUser st id =
      ({ success := false, message := "User not found" }, st) ∧
    DeleteUser (DeleteUser st id).2 id =
      ({ success := false, message := "User not found" }, st) := by
  refine ⟨?_, ?_, ?_, ?_⟩ <;> simp [GetUser, UpdateUser, DeleteUser, h]

/-- C6 witness: id 999 is absent from the seeded store and all three
operations report the fixed not-found envelope without touching the store. -/
theorem c6_not_found_envelope_witness :
    findUser (NewUserService 0) "999" = none ∧
    (GetUser (NewUserService 0) "999" =
      { user := none, success := false, message := "User not found" } ∧
    UpdateUser (NewUserService 0) 3 "999" "n" "e" 1 =
      ({ user := none, success := false, message := "User not found" },
       NewUserService 0) ∧
    DeleteUser (NewUserService 0) "999" =
      ({ success := false, message := "User not found" }, NewUserService 0) ∧
    DeleteUser (DeleteUser (NewUserService 0) "999").2 "999" =
      ({ success := false, message := "User not found" },
       NewUserService 0)) :=
  ⟨by decide, c6_not_found_envelope (NewUserService 0) 3 "999" "n" "e" 1
    (by decide)⟩

/-- C7: a freshly constructed store holds exactly the two seeded records
with the documented fields, created 24 and 12 hours before start time, and
updatedAt equals createdAt for both. -/
theorem c7_seeded_store (t : Int) :
    NewUserService t =
      [("1", { id := "1", name := "John Doe",
               email := "john.doe@example.com", age := 30,
               createdAt := t - 24 * nsPerHour,
               updatedAt := t - 24 * nsPerHour }),
       ("2", { id := "2", name := "Jane Smith",
               email := "jane.smith@example.com", age := 25,
               createdAt := t - 12 * nsPerHour,
               updatedAt := t - 12 * nsPerHour })] ∧
    (∀ p ∈ NewUserService t, p.2.updatedAt = p.2.createdAt) := by
  constructor
  · rfl
  · intro p hp
    simp [NewUserService, initializeSampleData, setUser] at hp
    rcases hp with hp | hp <;> simp [hp]

/-- C9: DeleteUser on a present id reports success = true with no record
payload, shrinks the live count by exactly one, and a subsequent GetUser on
the same id reports not-found. -/
theorem c9_delete_removes_key (st : Store) (id : String) (u : User)
    (hnd : (st.map Prod.fst).Nodup) (h : findUser st id = some u) :
    (DeleteUser st id).1 =
      { success := true, message := "User deleted successfully" } ∧
    st.length = ((DeleteUser st id).2).length + 1 ∧
    GetUser (DeleteUser st id).2 id =
      { user := none, success := false, message := "User not found" } := by
  refine ⟨by simp [DeleteUser, h], ?_, ?_⟩
  · simp only [DeleteUser, h]
    exact length_delUser st id u h
  · have hn := findUser_delUser_self st id hnd
    simp [DeleteUser, h, GetUser, hn]

/-- C9 witness: deleting record 2 of the seeded store succeeds, drops the
count from 2 to 1, and a following Get on id 2 reports not-found. -/
theorem c9_delete_removes_key_witness :
    (NewUserService 0).map Prod.fst = ["1", "2"] ∧
    findUser (NewUserService 0) "2" =
      some { id := "2", name := "Jane Smith",
             email := "jane.smith@example.com", age := 25,
             createdAt := -43200000000000, updatedAt := -43200000000000 } ∧
    ((DeleteUser (NewUserService 0) "2").1 =
      { success := true, message := "User deleted successfully" } ∧
    (NewUserService 0).length = ((DeleteUser (NewUserService 0) "2").2).length + 1 ∧
    GetUser (DeleteUser (NewUserService 0) "2").2 "2" =
      { user := none, success := false, message := "User not found" }) :=
  ⟨by decide, by decide,
   c9_delete_removes_key (NewUserService 0) "2"
     { id := "2", name := "Jane Smith", email := "jane.smith@example.com",
       age := 25, createdAt := -43200000000000,
       updatedAt := -43200000000000 }
     (by decide) (by decide)⟩

/-- C10: CreateUser performs no input validation: for every inputs it
reports success = true and stores the supplied name, email and age verbatim;
in particular a record with empty name, empty email and negative age can
live in the store. -/
theorem c10_create_no_validation (st : Store) (now : Int)
    (name email : String) (age : Int) :
    (CreateUser st now name email age).1.success = true ∧
    (CreateUser st now name email age).1.user =
      some { id := toString (st.length + 1), name := name, email := email,
             age := age, createdAt := now, updatedAt := now } ∧
    findUser (CreateUser st now "" "" (-3)).2 (toString (st.length + 1)) =
      some { id := toString (st.length + 1), name := "", email := "",
             age := -3, createdAt := now, updatedAt := now } := by
  refine ⟨rfl, rfl, ?_⟩
  simp only [CreateUser]
  exact findUser_setUser_self st (toString (st.length + 1)) _

/-- C8: after any timed sequence of operations with nondecreasing
timestamps starting from the freshly seeded store, every live record
satisfies createdAt ≤ updatedAt. -/
theorem c8_createdAt_le_updatedAt (t0 : Int) (ops : List (Int × Op))
    (hs : sortedFrom t0 ops = true) :
    ∀ p ∈ run (NewUserService t0) ops, p.2.createdAt ≤ p.2.updatedAt :=
  invTS_run ops (NewUserService t0) t0 (invTS_seed t0) hs

/-- C8 witness: a concrete update-create-delete sequence on the seeded
store keeps createdAt ≤ updatedAt for every live record. -/
theorem c8_createdAt_le_updatedAt_witness :
    sortedFrom 0 [(5, Op.update "1" "N" "" 0), (9, Op.create "A" "a@x.com" 20),
                  (9, Op.delete "2")] = true ∧
    ∀ p ∈ run (NewUserService 0)
        [(5, Op.update "1" "N" "" 0), (9, Op.create "A" "a@x.com" 20),
         (9, Op.delete "2")], p.2.createdAt ≤ p.2.updatedAt :=
  ⟨by decide,
   c8_createdAt_le_updatedAt 0
     [(5, Op.update "1" "N" "" 0), (9, Op.create "A" "a@x.com" 20),
      (9, Op.delete "2")] (by decide)⟩

/-- C5 counterexample: on the seeded store, after Delete of id 1 the live
count is 1, so the next Create generates id toString (1 + 1) = "2" and
replaces the existing record 2 (Jane Smith) with the new record: an id
present before the Create no longer maps to the same record. -/
theorem c5_counterexample_create_replaces :
    findUser ((DeleteUser (NewUserService 0) "1").2) "2" =
      some { id := "2", name := "Jane Smith",
             email := "jane.smith@example.com", age := 25,
             createdAt := -43200000000000, updatedAt := -43200000000000 } ∧
    findUser
        ((CreateUser ((DeleteUser (NewUserService 0) "1").2) 5
          "X" "x@x.com" 1).2) "2" =
      some { id := "2", name := "X", email := "x@x.com", age := 1,
             createdAt := 5, updatedAt := 5 } ∧
    ({ id := "2", name := "Jane Smith", email := "jane.smith@example.com",
       age := 25, createdAt := -43200000000000,
       updatedAt := -43200000000000 } : User) ≠
      { id := "2", name := "X", email := "x@x.com", age := 1,
        createdAt := 5, updatedAt := 5 } := by
  decide

/-- C5 amended: CreateUser leaves every previously present id unchanged
except the generated id toString (live count + 1) itself; only a collision
of the generated id with an existing key (possible after deletions) replaces
a record. -/
theorem c5_create_frame (st : Store) (now : Int) (name email : String)
    (age : Int) (id : String) (u : User)
    (h : findUser st id = some u)
    (hne : id ≠ toString (st.length + 1)) :
    findUser (CreateUser st now name email age).2 id = some u := by
  simp only [CreateUser]
  rw [findUser_setUser_ne st id (toString (st.length + 1)) _ hne]
  exact h

/-- C5 amended witness: a Create on the seeded store (generated id "3")
leaves record 1 untouched. -/
theorem c5_create_frame_witness :
    findUser (NewUserService 0) "1" =
      some { id := "1", name := "John Doe", email := "john.doe@example.com",
             age := 30, createdAt := -86400000000000,
             updatedAt := -86400000000000 } ∧
    "1" ≠ toString ((NewUserService 0).length + 1) ∧
    findUser (CreateUser (NewUserService 0) 5 "A" "a@x.com" 20).2 "1" =
      some { id := "1", name := "John Doe", email := "john.doe@example.com",
             age := 30, createdAt := -86400000000000,
             updatedAt := -86400000000000 } :=
  ⟨by decide, by decide,
   c5_create_frame (NewUserService 0) 5 "A" "a@x.com" 20 "1"
     { id := "1", name := "John Doe", email := "john.doe@example.com",
       age := 30, createdAt := -86400000000000,
       updatedAt := -86400000000000 }
     (by decide) (by decide)⟩

/-- C2 counterexample: ListUsers with page = 0 and limit = 1 on the seeded
store computes start = -1, which is below the live count 2, yet the call
does not return the slice envelope the claim promises: the Go slice
expression panics on the negative lower bound, modelled by none. -/
theorem c2_counterexample_page_zero :
    wrap32 (wrap32 ((0 : Int) - 1) * 1) < ((NewUserService 0).length : Int) ∧
    ListUsers (NewUserService 0) 0 1 = none := by
  decide

/-- C2 amended: with start = (page-1)*limit in int32 arithmetic and a live
count below 2^31, ListUsers returns the empty page with the fixed message
when start ≥ total, returns the [start, min (start+limit) total) slice with
the unclamped total when 0 ≤ start and 0 ≤ limit, and panics (none) when
start < total but start or limit is negative. -/
theorem c2_list_pagination (st : Store) (page limit : Int)
    (hlen : ((st.length : Int)) < 2 ^ 31) :
    (wrap32 (wrap32 (page - 1) * limit) ≥ (st.length : Int) →
      ListUsers st page limit =
        some { users := [], total := (st.length : Int), success := true,
               message := "No users found for the given page" }) ∧
    (wrap32 (wrap32 (page - 1) * limit) < (st.length : Int) →
      0 ≤ wrap32 (wrap32 (page - 1) * limit) → 0 ≤ limit →
      ListUsers st page limit =
        some { users :=
                 ((st.map Prod.snd).drop
                     (wrap32 (wrap32 (page - 1) * limit)).toNat).take
                   ((min (wrap32 (wrap32 (page - 1) * limit) + limit)
                       (st.length : Int) -
                     wrap32 (wrap32 (page - 1) * limit)).toNat),
               total := (st.length : Int), success := true,
               message := "Users retrieved successfully" }) ∧
    (wrap32 (wrap32 (page - 1) * limit) < (st.length : Int) →
      (wrap32 (wrap32 (page - 1) * limit) < 0 ∨ limit < 0) →
      ListUsers st page limit = none) := by
  have hw : wrap32 ((st.length : Int)) = (st.length : Int) := by
    refine wrap32_eq_self _ ?_ hlen
    have := Int.natCast_nonneg st.length
    omega
  refine ⟨?_, ?_, ?_⟩
  · intro hge
    simp only [ListUsers, List.length_map]
    rw [if_pos hge, hw]
  · intro hlt h0 hl
    simp only [ListUsers, List.length_map]
    rw [if_neg (by omega)]
    have hendC : (if wrap32 (wrap32 (page - 1) * limit) + limit >
          (st.length : Int) then ((st.length : Int))
        else wrap32 (wrap32 (page - 1) * limit) + limit) =
        min (wrap32 (wrap32 (page - 1) * limit) + limit) (st.length : Int) := by
      rcases le_or_lt (wrap32 (wrap32 (page - 1) * limit) + limit)
          ((st.length : Int)) with hc | hc
      · rw [if_neg (by omega), min_eq_left hc]
      · rw [if_pos hc, min_eq_right (le_of_lt hc)]
    rw [hendC]
    rw [if_pos ⟨h0, by omega⟩, hw]
  · intro hlt hbad
    simp only [ListUsers, List.length_map]
    rw [if_neg (by omega)]
    rw [if_neg (by omega)]

/-- C2 amended witness: on the seeded store, page 1 with limit 1 returns
exactly the first materialized record with total 2, page 3 with limit 1
returns the empty page envelope, and page 0 with limit 1 panics. -/
theorem c2_list_pagination_witness :
    (((NewUserService 0).length : Int)) < 2 ^ 31 ∧
    ListUsers (NewUserService 0) 1 1 =
      some { users := [{ id := "1", name := "John Doe",
                         email := "john.doe@example.com", age := 30,
                         createdAt := -86400000000000,
                         updatedAt := -86400000000000 }],
             total := 2, success := true,
             message := "Users retrieved successfully" } ∧
    ListUsers (NewUserService 0) 3 1 =
      some { users := [], total := 2, success := true,
             message := "No users found for the given page" } ∧
    ListUsers (NewUserService 0) 0 1 = none := by
  refine ⟨by decide, ?_, ?_, ?_⟩
  · have h := (c2_list_pagination (NewUserService 0) 1 1 (by decide)).2.1
      (by decide) (by decide) (by decide)
    exact h.trans (by decide)
  · have h := (c2_list_pagination (NewUserService 0) 3 1 (by decide)).1
      (by decide)
    exact h.trans (by decide)
  · exact (c2_list_pagination (NewUserService 0) 0 1 (by decide)).2.2
      (by decide) (by decide)

/-- C4 counterexample: ListUsers with a negative limit on the seeded store
does not return a response envelope: start = 0 is in range but end = -1,
and the Go slice expression allUsers[0:-1] panics, modelled by none. -/
theorem c4_counterexample_negative_limit :
    ListUsers (NewUserService 0) 1 (-1) = none := by
  decide

/-- C4 amended: Get, Create, Update and Delete always return an envelope
whose success flag alone reports failure (it tracks presence of the id, and
Create always succeeds); ListUsers returns an envelope unless start < total
while start or limit is negative (e.g. page = 0 or a negative limit on a
nonempty store), in which case the slicing panics instead of returning an
envelope. -/
theorem c4_envelopes_and_panic (st : Store) (now : Int)
    (id name email : String) (age page limit : Int) :
    (GetUser st id).success = (findUser st id).isSome ∧
    (CreateUser st now name email age).1.success = true ∧
    (UpdateUser st now id name email age).1.success =
      (findUser st id).isSome ∧
    (DeleteUser st id).1.success = (findUser st id).isSome ∧
    ((ListUsers st page limit).isSome = true ↔
      ¬(wrap32 (wrap32 (page - 1) * limit) < (st.length : Int) ∧
        (wrap32 (wrap32 (page - 1) * limit) < 0 ∨ limit < 0))) := by
  refine ⟨?_, rfl, ?_, ?_, ?_⟩
  · cases h : findUser st id <;> simp [GetUser, h]
  · cases h : findUser st id <;> simp [UpdateUser, h]
  · cases h : findUser st id <;> simp [DeleteUser, h]
  · simp only [ListUsers, List.length_map]
    constructor
    · intro hsome
      intro hc
      rw [if_neg (by omega)] at hsome
      rw [if_neg (by omega)] at hsome
      simp at hsome
    · intro hc
      by_cases hge : wrap32 (wrap32 (page - 1) * limit) ≥ (st.length : Int)
      · rw [if_pos hge]
        rfl
      · rw [if_neg hge]
        have h0 : 0 ≤ wrap32 (wrap32 (page - 1) * limit) := by
          by_contra hneg
          exact hc ⟨by omega, Or.inl (by omega)⟩
        have hl : 0 ≤ limit := by
          by_contra hneg
          exact hc ⟨by omega, Or.inr (by omega)⟩
        have hcond : wrap32 (wrap32 (page - 1) * limit) ≤
            (if wrap32 (wrap32 (page - 1) * limit) + limit >
                (st.length : Int) then ((st.length : Int))
             else wrap32 (wrap32 (page - 1) * limit) + limit) := by
          by_cases hc2 : wrap32 (wrap32 (page - 1) * limit) + limit >
              (st.length : Int)
          · rw [if_pos hc2]
            omega
          · rw [if_neg hc2]
            omega
        rw [if_pos ⟨h0, hcond⟩]
        rfl

end UserService
